import Mathlib

/-!
Shallow embedding of the TimeFlow core (time-accounting and approval engine)
and proofs about its operations.

Translation conventions:
* Calendar dates are embedded as integers (a day ordinal); `(today - d).days`
  becomes integer subtraction, and `date + timedelta(days=k)` becomes `+ k`.
* `float` hour amounts are embedded as rationals; `round(x, 2)` is rounding to
  the nearest multiple of 1/100 with ties to even, as Python's `round` does.
* Database rows are structures carrying the columns the modelled operations
  read or write; a table is a `List` of rows, and the primary key assigned by
  the database on insert is passed in explicitly as a fresh-id argument.
* Form string fields that the code inspects character by character
  (`task_id`, `project_id`) are embedded as `List Char`; fields whose parse
  result is all that matters (`date`, `hours`) are embedded as the `Option` of
  the parse result.
* HTTP error redirects / `HTTPException`s become `Except` error values.
-/

namespace Timeflow

/-! ## Enumerations (models.py) -/

inductive Role where
  | employee
  | manager
  | admin
deriving DecidableEq

inductive TaskStatus where
  | in_progress
  | on_pause
  | waiting
  | done
  | canceled
deriving DecidableEq

inductive Priority where
  | low
  | medium
  | high
  | critical
deriving DecidableEq

inductive LeaveType where
  | remote
  | sick
  | personal
  | business_trip
  | vacation
  | admin_leave
deriving DecidableEq

inductive LeaveStatus where
  | pending
  | approved
  | rejected
deriving DecidableEq

/-- The stable string token of a `LeaveType` (its `.value` in the source). -/
def leave_type_value : LeaveType → String
  | LeaveType.remote => "remote"
  | LeaveType.sick => "sick"
  | LeaveType.personal => "personal"
  | LeaveType.business_trip => "business_trip"
  | LeaveType.vacation => "vacation"
  | LeaveType.admin_leave => "admin_leave"

/-! ## Rows (models.py); only the columns the modelled operations touch -/

structure User where
  id : Int
  role : Role
deriving DecidableEq

structure Project where
  id : Int
  status : String
deriving DecidableEq

structure Task where
  id : Int
  title : String
  description : String
  status : TaskStatus
  priority : Priority
  percent_complete : Int
  start_date : Option Int
  due_date : Option Int
  project_id : Option Int
  assignee_id : Int
  created_by_id : Int
  approved : Bool
deriving DecidableEq

structure TimeEntry where
  id : Int
  user_id : Int
  task_id : Option Int
  project_id : Option Int
  date : Int
  hours : ℚ
  notes : String
  approved : Bool
  entry_type : String
  locked : Bool
  leave_request_id : Option Int
deriving DecidableEq

structure LeaveRequest where
  id : Int
  user_id : Int
  type : LeaveType
  date_from : Int
  date_to : Int
  status : LeaveStatus
  approver_id : Option Int
  comment : String
deriving DecidableEq

structure Attendance where
  user_id : Int
  date : Int
  check_in : Option Int
  check_out : Option Int
deriving DecidableEq

/-- `SHIFT_HOURS` (config.py, default 8.0). -/
def SHIFT_HOURS : ℚ := 8

/-! ## Python string primitives used by `_parse_optional_int` (app.py) -/

/-- Characters Python's `str.strip()` / `int()` treat as whitespace
(restricted to the ASCII range). -/
def pyIsSpace (c : Char) : Bool :=
  c = ' ' || c = '\t' || c = '\n' || c = '\r' || c = '\x0b' || c = '\x0c'

/-- Python `str.strip()`. -/
def pyStrip (s : List Char) : List Char :=
  ((s.dropWhile pyIsSpace).reverse.dropWhile pyIsSpace).reverse

/-- Python `str.lower()` (ASCII range). -/
def pyLower (s : List Char) : List Char :=
  s.map Char.toLower

/-- Python `str.strip()` on a `String` (free-text fields such as notes and
comments). -/
def pyStripString (s : String) : String :=
  String.mk (pyStrip s.data)

/-- Digit tail of Python's decimal `int()` grammar: digits with single
underscores allowed between digits. `acc` is the value of the digits read. -/
def pyDigits : List Char → Nat → Option Nat
  | [], acc => some acc
  | '_' :: [], _ => none
  | '_' :: c :: cs, acc =>
      if c.isDigit then pyDigits cs (acc * 10 + (c.toNat - 48)) else none
  | c :: cs, acc =>
      if c.isDigit then pyDigits cs (acc * 10 + (c.toNat - 48)) else none

/-- First digit of Python's decimal `int()` grammar (must exist, must not be
an underscore). -/
def pyDigitsStart : List Char → Option Nat
  | [] => none
  | c :: cs => if c.isDigit then pyDigits cs (c.toNat - 48) else none

/-- Python `int(s)` for a decimal string: optional surrounding whitespace, an
optional sign, then digits with single underscores between digits; `none`
models `ValueError`. -/
def pyIntOfString (s : List Char) : Option Int :=
  match pyStrip s with
  | '+' :: rest => (pyDigitsStart rest).map (fun n => (n : Int))
  | '-' :: rest => (pyDigitsStart rest).map (fun n => -(n : Int))
  | rest => (pyDigitsStart rest).map (fun n => (n : Int))

/-- `_parse_optional_int` (app.py): strip; `None` for empty strings and for
the tokens `"0"`, `"none"`, `"null"` (case-insensitively); otherwise `int(raw)`
with `ValueError` mapped to `None`. -/
def parse_optional_int (raw : Option (List Char)) : Option Int :=
  match raw with
  | none => none
  | some s =>
    let t := pyStrip s
    if t.isEmpty then none
    else if pyLower t = "0".toList ∨ pyLower t = "none".toList ∨ pyLower t = "null".toList then
      none
    else pyIntOfString t

/-- Python truthiness of an `int | None` value: `None` and `0` are falsy. -/
def optTruthy : Option Int → Bool
  | none => false
  | some n => decide (n ≠ 0)

/-! ## Hours validation (app.py `_normalize_hours`) -/

/-- Round to the nearest integer, ties to even (Python's `round`). -/
def roundHalfEven (x : ℚ) : ℤ :=
  if x - ⌊x⌋ < 1/2 then ⌊x⌋
  else if (1 : ℚ)/2 < x - ⌊x⌋ then ⌊x⌋ + 1
  else if Even ⌊x⌋ then ⌊x⌋ else ⌊x⌋ + 1

/-- Python `round(x, 2)`. -/
def round2 (x : ℚ) : ℚ :=
  (roundHalfEven (100 * x) : ℚ) / 100

/-- `_normalize_hours` (app.py). The argument models `float(raw)`: `none` when
parsing raises `ValueError` or the parsed value is not finite (both raise
`ValueError("invalid")` in the source); `some v` is the parsed finite value.
The source rejects `value <= 0` and returns `round(value, 2)`. -/
def normalize_hours (raw : Option ℚ) : Except Unit ℚ :=
  match raw with
  | none => Except.error ()
  | some v => if v ≤ 0 then Except.error () else Except.ok (round2 v)

/-! ## Backfill auto-approval rule (app.py `add_time_entry`, lines 431-433) -/

/-- `approved = not (delta_days > ALLOW_BACKFILL_DAYS or d > today)` where
`delta_days = (today - d).days`. -/
def backfill_approved (entry_date today allow_backfill_days : Int) : Bool :=
  !(decide (today - entry_date > allow_backfill_days) || decide (entry_date > today))

/-! ## Time Ledger (app.py `add_time_entry`, `delete_time_entry`) -/

inductive TimesheetError where
  | invalid_date
  | invalid_hours
  | task_missing
  | task_forbidden
  | project_missing
  | project_forbidden
deriving DecidableEq

inductive DeleteError where
  | forbidden
  | locked
deriving DecidableEq

/-- `add_time_entry` (app.py). `getTask` / `getProject` model `db.get` by
primary key; `allowedProjectIds` models membership in
`allowed_projects_for(user, db)`; `newId` is the primary key the database
assigns on insert. -/
def add_time_entry (user : User) (dateRaw : Option Int) (hoursRaw : Option ℚ)
    (task_id project_id : List Char) (notes : String)
    (today allow_backfill_days : Int)
    (getTask : Int → Option Task) (getProject : Int → Option Project)
    (allowedProjectIds : Int → Bool) (newId : Int) :
    Except TimesheetError TimeEntry :=
  match dateRaw with
  | none => Except.error TimesheetError.invalid_date
  | some d =>
    let approved := backfill_approved d today allow_backfill_days
    match normalize_hours hoursRaw with
    | Except.error _ => Except.error TimesheetError.invalid_hours
    | Except.ok hours_value =>
      let task_id_i := parse_optional_int (some task_id)
      let project_id_i :=
        if optTruthy task_id_i then none else parse_optional_int (some project_id)
      let mk : Option Int → Option Int → Except TimesheetError TimeEntry := fun t p =>
        Except.ok { id := newId, user_id := user.id, task_id := t, project_id := p,
                    date := d, hours := hours_value, notes := pyStripString notes,
                    approved := approved, entry_type := "work", locked := false,
                    leave_request_id := none }
      if optTruthy task_id_i then
        match getTask (task_id_i.getD 0) with
        | none => Except.error TimesheetError.task_missing
        | some task =>
          if task.assignee_id ≠ user.id ∧ user.role = Role.employee then
            Except.error TimesheetError.task_forbidden
          else
            mk task_id_i none
      else if optTruthy project_id_i then
        match getProject (project_id_i.getD 0) with
        | none => Except.error TimesheetError.project_missing
        | some project =>
          if project.status ≠ "active" then
            Except.error TimesheetError.project_missing
          else if user.role = Role.employee ∧ allowedProjectIds project.id = false then
            Except.error TimesheetError.project_forbidden
          else
            mk task_id_i project_id_i
      else
        mk task_id_i project_id_i

/-- `delete_time_entry` (app.py): the entry must exist and belong to the
caller (403), must not be locked (400); deletion is hard. -/
def delete_time_entry (db : List TimeEntry) (userId entry_id : Int) :
    Except DeleteError (List TimeEntry) :=
  match db.find? (fun e => decide (e.id = entry_id)) with
  | none => Except.error DeleteError.forbidden
  | some te =>
    if te.user_id ≠ userId then Except.error DeleteError.forbidden
    else if te.locked then Except.error DeleteError.locked
    else Except.ok (db.eraseP (fun e => decide (e.id = entry_id)))

/-! ## Leave synchronizer (app.py `_daterange`, `_sync_leave_time_entries`) -/

/-- `_daterange` (app.py): `days = (end - start).days; range(days + 1)`. -/
def daterange (start stop : Int) : List Int :=
  (List.range (stop - start + 1).toNat).map (fun (offset : Nat) => start + (offset : Int))

/-- One step of building a Python dict: overwrite the value if the key is
present, otherwise append the binding. -/
def dictInsert (m : List (Int × TimeEntry)) (k : Int) (v : TimeEntry) :
    List (Int × TimeEntry) :=
  if k ∈ m.map Prod.fst then
    m.map (fun p => if p.1 = k then (p.1, v) else p)
  else m ++ [(k, v)]

/-- The dict comprehension `{entry.date: entry for entry in ...}` (later rows
overwrite earlier ones with the same date). -/
def buildByDate (rows : List TimeEntry) : List (Int × TimeEntry) :=
  rows.foldl (fun m e => dictInsert m e.date e) []

/-- The entries `select(TimeEntry).where(TimeEntry.leave_request_id == leaveId)`. -/
def linked_entries (db : List TimeEntry) (leaveId : Int) : List TimeEntry :=
  db.filter (fun e => decide (e.leave_request_id = some leaveId))

/-- `f"Leave #{leave.id}: {leave.type.value}"`. -/
def leave_note (leave : LeaveRequest) : String :=
  "Leave #" ++ toString leave.id ++ ": " ++ leave_type_value leave.type

/-- The in-place field refresh the synchronizer applies to an existing linked
entry whose date is within the requested period. -/
def canonical_leave_entry_update (note : String) (e : TimeEntry) : TimeEntry :=
  { e with hours := SHIFT_HOURS, notes := note, approved := true,
           entry_type := "leave", locked := true }

/-- `_sync_leave_time_entries` (app.py): key the linked entries by date
(a Python dict), delete the keyed entries whose date falls outside the
requested period, refresh the keyed entries within the period, and insert a
fresh leave entry for each date of the period that has no keyed entry.
Deleting / updating a fetched row is rendered through its primary key;
`nextId` is the first primary key the database assigns to inserted rows. -/
def sync_leave_time_entries (db : List TimeEntry) (leave : LeaveRequest)
    (nextId : Int) : List TimeEntry :=
  let desired_dates := daterange leave.date_from leave.date_to
  let existing_entries := buildByDate (linked_entries db leave.id)
  let stale := existing_entries.filter (fun p => decide (¬ p.1 ∈ desired_dates))
  let kept := existing_entries.filter (fun p => decide (p.1 ∈ desired_dates))
  let staleIds := stale.map (fun p => p.2.id)
  let note := leave_note leave
  let afterDelete := db.filter (fun e => decide (¬ e.id ∈ staleIds))
  let afterUpdate := afterDelete.map (fun e =>
      if kept.any (fun p => decide (p.2.id = e.id)) then
        canonical_leave_entry_update note e
      else e)
  let missing := desired_dates.filter (fun day => !kept.any (fun p => decide (p.1 = day)))
  let newRows := missing.enum.map (fun p =>
      { id := nextId + (p.1 : Int), user_id := leave.user_id, task_id := none,
        project_id := none, date := p.2, hours := SHIFT_HOURS, notes := note,
        approved := true, entry_type := "leave", locked := true,
        leave_request_id := some leave.id : TimeEntry })
  afterUpdate ++ newRows

/-! ## Attendance (app.py `attendance_checkin`) -/

/-- `attendance_checkin` (app.py): `att` is the row found for `(user, today)`,
if any; `att.check_in = att.check_in or now` keeps an already-set check-in. -/
def attendance_checkin (att : Option Attendance) (userId day now : Int) : Attendance :=
  match att with
  | none => { user_id := userId, date := day, check_in := some now, check_out := none }
  | some a => { a with check_in := some (a.check_in.getD now) }

/-! ## Task workflow (app.py `create_task`, `approve_task`) -/

/-- `create_task` (app.py): an employee-created task requires approval and
starts `waiting`; otherwise it starts approved and `in_progress`. -/
def create_task (user : User) (title description : String) (assignee_id : Int)
    (project_id : Option Int) (priority : Priority)
    (start_date due_date : Option Int) (newId : Int) : Task :=
  let needs_approval : Bool := decide (user.role = Role.employee)
  { id := newId, title := title, description := description,
    status := if needs_approval then TaskStatus.waiting else TaskStatus.in_progress,
    priority := priority, percent_complete := 0, start_date := start_date,
    due_date := due_date, project_id := project_id, assignee_id := assignee_id,
    created_by_id := user.id, approved := !needs_approval }

/-- `approve_task` (app.py): `t.approved = bool(approve)`; if `approve` is
truthy and the status is `waiting`, advance it to `in_progress`. The `approve`
form field is an int (default 1). -/
def approve_task (t : Task) (approve : Int) : Task :=
  let t1 := { t with approved := decide (approve ≠ 0) }
  if approve ≠ 0 ∧ t1.status = TaskStatus.waiting then
    { t1 with status := TaskStatus.in_progress }
  else t1

/-! ## Leave workflow (app.py `request_leave`, `approve_leave`) -/

/-- `request_leave` (app.py): creates the request from the form data with no
validation of the range; `status` takes the model default `pending`
(models.py). -/
def request_leave (userId : Int) (type : LeaveType) (date_from date_to : Int)
    (comment : String) (newId : Int) : LeaveRequest :=
  { id := newId, user_id := userId, type := type, date_from := date_from,
    date_to := date_to, status := LeaveStatus.pending, approver_id := none,
    comment := pyStripString comment }

/-- `approve_leave` (app.py): approving sets `approved`/the approver and runs
the synchronizer; rejecting sets `rejected`/the approver and deletes every
entry linked to the request unconditionally. The `approve` form field is an
int (default 1). -/
def approve_leave (db : List TimeEntry) (lr : LeaveRequest) (approverId : Int)
    (approve : Int) (nextId : Int) : LeaveRequest × List TimeEntry :=
  if approve ≠ 0 then
    let lr2 := { lr with status := LeaveStatus.approved, approver_id := some approverId }
    (lr2, sync_leave_time_entries db lr2 nextId)
  else
    let lr2 := { lr with status := LeaveStatus.rejected, approver_id := some approverId }
    (lr2, db.filter (fun e => decide (¬ e.leave_request_id = some lr.id)))

end Timeflow

namespace Timeflow

/-! ## Helper lemmas -/

/-- Membership in `daterange a b` is exactly the closed interval `[a, b]`. -/
theorem mem_daterange {a b d : Int} : d ∈ daterange a b ↔ a ≤ d ∧ d ≤ b := by
  unfold daterange
  rw [List.mem_map]
  constructor
  · rintro ⟨i, hi, rfl⟩
    rw [List.mem_range] at hi
    omega
  · rintro ⟨h1, h2⟩
    refine ⟨(d - a).toNat, ?_, ?_⟩
    · rw [List.mem_range]
      omega
    · omega

/-! ## C1 -/

/-- C1 counterexample: calling the leave-request operation with
`date_from = 5 > 3 = date_to` does not fail with `InvalidRange` — a
`LeaveRequest` with the inverted range is created and starts `pending`. -/
theorem request_leave_no_range_check_counterexample :
    (5 : Int) > 3 ∧
    request_leave 1 LeaveType.vacation 5 3 "" 1 =
      { id := 1, user_id := 1, type := LeaveType.vacation, date_from := 5,
        date_to := 3, status := LeaveStatus.pending, approver_id := none,
        comment := "" } :=
  ⟨by decide, by decide⟩

/-- C1 (amended): `request_leave` performs no range validation at all — for
every input, including `date_from > date_to`, it creates a `LeaveRequest`
with the given range and status `pending`; no `InvalidRange` failure exists. -/
theorem request_leave_always_creates_pending (userId : Int) (type : LeaveType)
    (date_from date_to : Int) (comment : String) (newId : Int) :
    (request_leave userId type date_from date_to comment newId).status =
        LeaveStatus.pending ∧
    (request_leave userId type date_from date_to comment newId).date_from = date_from ∧
    (request_leave userId type date_from date_to comment newId).date_to = date_to :=
  ⟨rfl, rfl, rfl⟩

/-! ## C3 -/

/-- C3: the backfill auto-approval predicate used when creating a work entry
is true iff `entry_date ≤ today` and `(today - entry_date).days` is at most
`allow_backfill_days`; equivalently the entry is unapproved exactly when the
date is in the future or beyond the backfill window. -/
theorem backfill_approved_iff (entry_date today allow_backfill_days : Int) :
    backfill_approved entry_date today allow_backfill_days = true ↔
      entry_date ≤ today ∧ today - entry_date ≤ allow_backfill_days := by
  simp only [backfill_approved, Bool.not_eq_true', Bool.or_eq_false_iff,
    decide_eq_false_iff_not, not_lt]
  omega

/-! ## C4 -/

/-- C4: rejecting a leave request (`approve = 0`) sets `status = rejected`,
records the approver, and leaves zero time entries linked to the request —
for every database state (so regardless of prior approval/synchronization
history) and with no condition on the `locked` flag of the entries. -/
theorem reject_leave_removes_linked_entries (db : List TimeEntry)
    (lr : LeaveRequest) (approverId nextId : Int) :
    (approve_leave db lr approverId 0 nextId).1.status = LeaveStatus.rejected ∧
    (approve_leave db lr approverId 0 nextId).1.approver_id = some approverId ∧
    linked_entries (approve_leave db lr approverId 0 nextId).2 lr.id = [] := by
  refine ⟨rfl, rfl, ?_⟩
  simp only [approve_leave, if_neg (by omega : ¬ (0 : Int) ≠ 0), linked_entries]
  rw [List.filter_filter, List.filter_eq_nil_iff]
  intro e _
  simp only [Bool.and_eq_true, decide_eq_true_eq, not_and]
  intro h1 h2
  exact h2 h1

/-! ## C8 -/

/-- C8: a task created by an employee starts unapproved and `waiting`; one
created by a manager or admin starts approved and `in_progress`; approving a
task sets `approved = true` and advances the status to `in_progress` exactly
when the current status is `waiting`, leaving it untouched otherwise. -/
theorem task_approval_lifecycle (user : User) (title description : String)
    (assignee_id : Int) (project_id : Option Int) (priority : Priority)
    (start_date due_date : Option Int) (newId : Int) (t : Task) (approve : Int) :
    (user.role = Role.employee →
      (create_task user title description assignee_id project_id priority
          start_date due_date newId).approved = false ∧
      (create_task user title description assignee_id project_id priority
          start_date due_date newId).status = TaskStatus.waiting) ∧
    ((user.role = Role.manager ∨ user.role = Role.admin) →
      (create_task user title description assignee_id project_id priority
          start_date due_date newId).approved = true ∧
      (create_task user title description assignee_id project_id priority
          start_date due_date newId).status = TaskStatus.in_progress) ∧
    (approve ≠ 0 →
      (approve_task t approve).approved = true ∧
      (approve_task t approve).status =
        (if t.status = TaskStatus.waiting then TaskStatus.in_progress
         else t.status)) := by
  refine ⟨fun h => ?_, fun h => ?_, fun h => ?_⟩
  · simp [create_task, h]
  · have hne : user.role ≠ Role.employee := by
      rcases h with h | h <;> simp [h]
    simp [create_task, hne]
  · constructor
    · simp only [approve_task]
      split <;> simp [h]
    · simp only [approve_task]
      by_cases hw : t.status = TaskStatus.waiting
      · rw [if_pos hw, if_pos ⟨h, hw⟩]
      · rw [if_neg hw, if_neg (by simp [hw])]

/-- C8 witness: an employee-created task is unapproved and `waiting`;
approving that task with `approve = 1` makes it approved and `in_progress`. -/
theorem task_approval_lifecycle_witness :
    ((create_task ⟨1, Role.employee⟩ "t" "" 2 none Priority.medium none none 5).approved
        = false ∧
     (create_task ⟨1, Role.employee⟩ "t" "" 2 none Priority.medium none none 5).status
        = TaskStatus.waiting) ∧
    ((approve_task (create_task ⟨1, Role.employee⟩ "t" "" 2 none Priority.medium
        none none 5) 1).approved = true ∧
     (approve_task (create_task ⟨1, Role.employee⟩ "t" "" 2 none Priority.medium
        none none 5) 1).status =
       (if (create_task ⟨1, Role.employee⟩ "t" "" 2 none Priority.medium
            none none 5).status = TaskStatus.waiting then TaskStatus.in_progress
        else (create_task ⟨1, Role.employee⟩ "t" "" 2 none Priority.medium
            none none 5).status)) :=
  ⟨(task_approval_lifecycle ⟨1, Role.employee⟩ "t" "" 2 none Priority.medium none
      none 5 (create_task ⟨1, Role.employee⟩ "t" "" 2 none Priority.medium none
      none 5) 1).1 rfl,
   (task_approval_lifecycle ⟨1, Role.employee⟩ "t" "" 2 none Priority.medium none
      none 5 (create_task ⟨1, Role.employee⟩ "t" "" 2 none Priority.medium none
      none 5) 1).2.2 (by decide)⟩

/-! ## C9 -/

/-- C9: `check_in` is first-write-wins and idempotent: with no record a new
one is created with `check_in = now`; with a record lacking a check-in it is
set to `now`; with a check-in already set the call changes nothing — so a
repeated check-in never moves the recorded time. -/
theorem attendance_checkin_first_write_wins (att : Option Attendance)
    (userId day now now2 : Int) :
    (att = none →
      attendance_checkin att userId day now =
        { user_id := userId, date := day, check_in := some now, check_out := none }) ∧
    (∀ a, att = some a → a.check_in = none →
      attendance_checkin att userId day now = { a with check_in := some now }) ∧
    (∀ a t, att = some a → a.check_in = some t →
      attendance_checkin att userId day now = a) ∧
    (attendance_checkin (some (attendance_checkin att userId day now)) userId day now2
      = attendance_checkin att userId day now) := by
  refine ⟨fun h => ?_, fun a ha hc => ?_, fun a t ha hc => ?_, ?_⟩
  · subst h; rfl
  · subst ha; simp [attendance_checkin, hc]
  · subst ha
    obtain ⟨au, ad, ac, aco⟩ := a
    simp only [Attendance.check_in] at hc
    subst hc
    simp [attendance_checkin]
  · cases att with
    | none => simp [attendance_checkin]
    | some a => cases h : a.check_in <;> simp [attendance_checkin, h]

/-- C9 witness: checking in at 09:00 (minute 540) and again at 09:30
(minute 570) leaves `check_in = 09:00`. -/
theorem attendance_checkin_first_write_wins_witness :
    attendance_checkin
        (some { user_id := 1, date := 0, check_in := some 540, check_out := none })
        1 0 570 =
      { user_id := 1, date := 0, check_in := some 540, check_out := none } :=
  (attendance_checkin_first_write_wins
      (some { user_id := 1, date := 0, check_in := some 540, check_out := none })
      1 0 570 600).2.2.1
    { user_id := 1, date := 0, check_in := some 540, check_out := none } 540 rfl rfl

end Timeflow

namespace Timeflow

/-! ## Inversion of a successful `add_time_entry` -/

/-- Every successfully created work entry has exactly the shape built at the
end of `add_time_entry`: the parsed task binding, the project binding cleared
whenever the parsed task id is truthy, the rounded hours, the backfill
approval flag, and no lock or leave link. -/
theorem add_time_entry_ok_shape (user : User) (dateRaw : Option Int) (hoursRaw : Option ℚ)
    (task_id project_id : List Char) (notes : String) (today allow : Int)
    (getTask : Int → Option Task) (getProject : Int → Option Project)
    (allowedIds : Int → Bool) (newId : Int) (e : TimeEntry)
    (hok : add_time_entry user dateRaw hoursRaw task_id project_id notes today allow
        getTask getProject allowedIds newId = Except.ok e) :
    ∃ d hv, dateRaw = some d ∧ normalize_hours hoursRaw = Except.ok hv ∧
      e = { id := newId, user_id := user.id,
            task_id := parse_optional_int (some task_id),
            project_id :=
              if optTruthy (parse_optional_int (some task_id)) then none
              else parse_optional_int (some project_id),
            date := d, hours := hv, notes := pyStripString notes,
            approved := backfill_approved d today allow, entry_type := "work",
            locked := false, leave_request_id := none } := by
  unfold add_time_entry at hok
  cases dateRaw with
  | none => exact Except.noConfusion hok
  | some d =>
    cases hn : normalize_hours hoursRaw with
    | error u => rw [hn] at hok; exact Except.noConfusion hok
    | ok hv =>
      rw [hn] at hok
      refine ⟨d, hv, rfl, rfl, ?_⟩
      dsimp only at hok
      split at hok
      · rename_i htruthy
        split at hok
        · exact Except.noConfusion hok
        · split at hok
          · exact Except.noConfusion hok
          · injection hok with h
            rw [← h]
            simp [htruthy]
      · rename_i htr
        split at hok
        · split at hok
          · exact Except.noConfusion hok
          · split at hok
            · exact Except.noConfusion hok
            · split at hok
              · exact Except.noConfusion hok
              · injection hok with h
                rw [← h, if_neg htr]
        · injection hok with h
          rw [← h, if_neg htr]

/-! ## C7 -/

/-- C7: `delete_time_entry` fails with `Locked` whenever the entry exists, is
owned by the caller, and is locked (the error return carries no new database
state, so nothing changes); for an entry that does not exist or is not owned
by the caller it fails with `Forbidden`. -/
theorem delete_entry_locked_and_forbidden (db : List TimeEntry) (userId entry_id : Int) :
    (∀ te, db.find? (fun e => decide (e.id = entry_id)) = some te →
        te.user_id = userId → te.locked = true →
        delete_time_entry db userId entry_id = Except.error DeleteError.locked) ∧
    (db.find? (fun e => decide (e.id = entry_id)) = none →
        delete_time_entry db userId entry_id = Except.error DeleteError.forbidden) ∧
    (∀ te, db.find? (fun e => decide (e.id = entry_id)) = some te →
        te.user_id ≠ userId →
        delete_time_entry db userId entry_id = Except.error DeleteError.forbidden) := by
  refine ⟨fun te hf ho hl => ?_, fun hf => ?_, fun te hf ho => ?_⟩
  · simp [delete_time_entry, hf, ho, hl]
  · simp [delete_time_entry, hf]
  · simp [delete_time_entry, hf, ho]

/-- C7 witness: the owner of a locked entry gets the `Locked` error. -/
theorem delete_entry_locked_and_forbidden_witness :
    delete_time_entry
        [{ id := 1, user_id := 1, task_id := none, project_id := none, date := 0,
           hours := 8, notes := "", approved := true, entry_type := "leave",
           locked := true, leave_request_id := some 4 }] 1 1 =
      Except.error DeleteError.locked :=
  (delete_entry_locked_and_forbidden
      [{ id := 1, user_id := 1, task_id := none, project_id := none, date := 0,
         hours := 8, notes := "", approved := true, entry_type := "leave",
         locked := true, leave_request_id := some 4 }] 1 1).1
    { id := 1, user_id := 1, task_id := none, project_id := none, date := 0,
      hours := 8, notes := "", approved := true, entry_type := "leave",
      locked := true, leave_request_id := some 4 } (by decide) rfl rfl

/-! ## C5 -/

theorem floor_le_roundHalfEven (x : ℚ) : ⌊x⌋ ≤ roundHalfEven x := by
  unfold roundHalfEven
  split
  · exact le_refl _
  · split
    · omega
    · split <;> omega

theorem round2_nonneg {x : ℚ} (hx : 0 ≤ x) : 0 ≤ round2 x := by
  unfold round2
  have h1 : (0 : ℤ) ≤ ⌊(100 : ℚ) * x⌋ := Int.floor_nonneg.mpr (by linarith)
  have h2 := floor_le_roundHalfEven ((100 : ℚ) * x)
  have h3 : (0 : ℚ) ≤ (roundHalfEven ((100 : ℚ) * x) : ℚ) := by exact_mod_cast by omega
  linarith

theorem round2_milli : round2 (1/1000) = 0 := by
  have h1 : (100 : ℚ) * (1/1000) = 1/10 := by norm_num
  have h2 : ⌊(1 : ℚ)/10⌋ = 0 := by
    rw [Int.floor_eq_iff]
    norm_num
  unfold round2 roundHalfEven
  rw [h1, h2, if_pos (by norm_num)]
  norm_num

theorem normalize_hours_milli : normalize_hours (some (1/1000)) = Except.ok 0 := by
  unfold normalize_hours
  dsimp only
  rw [if_neg (by norm_num), round2_milli]

theorem round2_eight : round2 8 = 8 := by
  have h1 : (100 : ℚ) * 8 = 800 := by norm_num
  have h2 : ⌊(800 : ℚ)⌋ = 800 := by
    rw [show (800 : ℚ) = ((800 : ℤ) : ℚ) by norm_num, Int.floor_intCast]
  unfold round2 roundHalfEven
  rw [h1, h2, if_pos (by norm_num)]
  norm_num

theorem normalize_hours_eight : normalize_hours (some 8) = Except.ok 8 := by
  unfold normalize_hours
  dsimp only
  rw [if_neg (by norm_num), round2_eight]

theorem round2_pos {x : ℚ} (hx : 1/100 ≤ x) : 0 < round2 x := by
  unfold round2
  have h1 : (1 : ℤ) ≤ ⌊(100 : ℚ) * x⌋ := by
    rw [Int.le_floor]
    push_cast
    linarith
  have h2 := floor_le_roundHalfEven ((100 : ℚ) * x)
  have h3 : (1 : ℚ) ≤ (roundHalfEven ((100 : ℚ) * x) : ℚ) := by exact_mod_cast by omega
  linarith

/-- C5 (amended): a raw hours value accepted by the validator is strictly
positive, and the stored hours of the created entry is its value rounded to
2 decimal places — which is nonnegative, and strictly positive whenever the
accepted value is at least 0.01; positivity of the stored hours can fail for
accepted values below 0.005 (see the counterexample). -/
theorem add_entry_hours_nonneg (user : User) (dateRaw : Option Int) (v : ℚ)
    (task_id project_id : List Char) (notes : String) (today allow : Int)
    (getTask : Int → Option Task) (getProject : Int → Option Project)
    (allowedIds : Int → Bool) (newId : Int) (e : TimeEntry)
    (hok : add_time_entry user dateRaw (some v) task_id project_id notes today allow
        getTask getProject allowedIds newId = Except.ok e) :
    0 < v ∧ e.hours = round2 v ∧ 0 ≤ e.hours ∧ (1/100 ≤ v → 0 < e.hours) := by
  obtain ⟨d, hv, hd, hn, he⟩ := add_time_entry_ok_shape user dateRaw (some v)
    task_id project_id notes today allow getTask getProject allowedIds newId e hok
  unfold normalize_hours at hn
  dsimp only at hn
  by_cases hv0 : v ≤ 0
  · rw [if_pos hv0] at hn
    exact Except.noConfusion hn
  · rw [if_neg hv0] at hn
    injection hn with hhv
    have hhours : e.hours = round2 v := by rw [he, ← hhv]
    push_neg at hv0
    refine ⟨hv0, hhours, ?_, fun h => ?_⟩
    · rw [hhours]
      exact round2_nonneg (le_of_lt hv0)
    · rw [hhours]
      exact round2_pos h

/-- C5 counterexample: the raw value 0.001 is accepted by the hours validator
(it parses to a finite number > 0), yet the entry `add_time_entry` persists
for it has `hours = 0`, not `> 0`, because the source rounds after the
positivity check. -/
theorem add_entry_zero_hours_counterexample :
    normalize_hours (some (1/1000)) = Except.ok 0 ∧
    (add_time_entry ⟨1, Role.employee⟩ (some 0) (some (1/1000)) [] [] "" 0 1
        (fun _ => none) (fun _ => none) (fun _ => false) 7).toOption.map
      (fun e => e.hours) = some 0 := by
  refine ⟨normalize_hours_milli, ?_⟩
  unfold add_time_entry
  dsimp only
  rw [normalize_hours_milli]
  rfl

/-- C5 witness: a normal accepted value (8 hours) yields positive stored
hours. -/
theorem add_entry_hours_nonneg_witness :
    0 < (8 : ℚ) ∧
    TimeEntry.hours
      { id := 7, user_id := 1, task_id := none, project_id := none,
        date := 0, hours := 8, notes := pyStripString (""),
        approved := backfill_approved 0 0 1, entry_type := "work",
        locked := false, leave_request_id := none } = round2 8 ∧
    0 ≤ TimeEntry.hours
      { id := 7, user_id := 1, task_id := none, project_id := none,
        date := 0, hours := 8, notes := pyStripString (""),
        approved := backfill_approved 0 0 1, entry_type := "work",
        locked := false, leave_request_id := none } ∧
    (1/100 ≤ (8 : ℚ) →
      0 < TimeEntry.hours
        { id := 7, user_id := 1, task_id := none, project_id := none,
          date := 0, hours := 8, notes := pyStripString (""),
          approved := backfill_approved 0 0 1, entry_type := "work",
          locked := false, leave_request_id := none }) :=
  add_entry_hours_nonneg ⟨1, Role.employee⟩ (some 0) 8 [] [] "" 0 1
    (fun _ => none) (fun _ => none) (fun _ => false) 7
    { id := 7, user_id := 1, task_id := none, project_id := none,
      date := 0, hours := 8, notes := pyStripString (""),
      approved := backfill_approved 0 0 1, entry_type := "work",
      locked := false, leave_request_id := none }
    (by unfold add_time_entry
        dsimp only
        rw [normalize_hours_eight]
        rfl)

end Timeflow

namespace Timeflow

/-! ## C6 -/

/-- C6 (amended): an entry created bound to an actual task (a truthy, i.e.
nonzero, parsed task id) always has its project binding cleared, and the
leave synchronizer keeps its linked entries free of both bindings (its new
entries carry neither, and refreshing preserves that). However, a `task_id`
string that parses to the integer 0 without being the literal token `"0"`
(e.g. `"00"`) is stored as a non-null task id while the project binding is
also applied, so an entry can carry both columns — see the counterexample. -/
theorem entry_binding_exclusive :
    (∀ user dateRaw hoursRaw task_id project_id notes today allow getTask getProject
        allowedIds newId e n,
        add_time_entry user dateRaw hoursRaw task_id project_id notes today allow
            getTask getProject allowedIds newId = Except.ok e →
        e.task_id = some n → n ≠ 0 → e.project_id = none) ∧
    (∀ db leave nextId,
        (∀ f ∈ linked_entries db leave.id, f.task_id = none ∧ f.project_id = none) →
        ∀ f ∈ linked_entries (sync_leave_time_entries db leave nextId) leave.id,
          f.task_id = none ∧ f.project_id = none) := by
  constructor
  · intro user dateRaw hoursRaw task_id project_id notes today allow getTask
      getProject allowedIds newId e n hok ht hn0
    obtain ⟨d, hv, hd, hnorm, he⟩ := add_time_entry_ok_shape user dateRaw hoursRaw
      task_id project_id notes today allow getTask getProject allowedIds newId e hok
    subst he
    dsimp only at ht ⊢
    rw [ht]
    simp [optTruthy, hn0]
  · intro db leave nextId H f hf
    simp only [linked_entries, List.mem_filter, decide_eq_true_eq] at hf H
    obtain ⟨hfmem, hflink⟩ := hf
    simp only [sync_leave_time_entries, List.mem_append] at hfmem
    rcases hfmem with hfa | hfn
    · rw [List.mem_map] at hfa
      obtain ⟨g, hg, hfg⟩ := hfa
      rw [List.mem_filter] at hg
      have hgdb : g ∈ db := hg.1
      split at hfg
      · subst hfg
        simp only [canonical_leave_entry_update] at hflink ⊢
        exact H g ⟨hgdb, hflink⟩
      · subst hfg
        exact H g ⟨hgdb, hflink⟩
    · rw [List.mem_map] at hfn
      obtain ⟨p, hp, hfp⟩ := hfn
      subst hfp
      exact ⟨rfl, rfl⟩

/-- C6 counterexample: the `task_id` form string `"00"` parses to the integer
0 (only the literal token `"0"` is mapped to `None`), which is falsy, so the
project binding is applied — yet the stored entry keeps `task_id = 0`: the
created entry has both a non-null task id and a project id. -/
theorem entry_both_bindings_counterexample :
    ((add_time_entry ⟨1, Role.employee⟩ (some 0) (some 8) ("00".toList) ("5".toList)
        "" 0 1 (fun _ => none)
        (fun i => if i = 5 then some { id := 5, status := "active" } else none)
        (fun _ => true) 7).toOption.map (fun e => (e.task_id, e.project_id))) =
      some (some 0, some 5) := by
  decide

/-- C6 witness: an entry bound to existing task 5 (assigned to the caller)
has its supplied project id cleared, and a synchronizer run on an empty
database produces only binding-free entries. -/
theorem entry_binding_exclusive_witness :
    TimeEntry.project_id
      { id := 9, user_id := 1, task_id := some 5, project_id := none, date := 0,
        hours := 8, notes := pyStripString (""), approved := backfill_approved 0 0 1,
        entry_type := "work", locked := false, leave_request_id := none } = none ∧
    (∀ f ∈ linked_entries
        (sync_leave_time_entries []
          { id := 3, user_id := 7, type := LeaveType.vacation, date_from := 0,
            date_to := 1, status := LeaveStatus.approved, approver_id := some 1,
            comment := "" } 10) 3,
      f.task_id = none ∧ f.project_id = none) :=
  ⟨entry_binding_exclusive.1 ⟨1, Role.employee⟩ (some 0) (some 8) ("5".toList)
      ("7".toList) "" 0 1
      (fun i => if i = 5 then
          some { id := 5, title := "t", description := "", status := TaskStatus.in_progress,
                 priority := Priority.medium, percent_complete := 0, start_date := none,
                 due_date := none, project_id := some 7, assignee_id := 1,
                 created_by_id := 2, approved := true }
        else none)
      (fun _ => none) (fun _ => false) 9
      { id := 9, user_id := 1, task_id := some 5, project_id := none, date := 0,
        hours := 8, notes := pyStripString (""), approved := backfill_approved 0 0 1,
        entry_type := "work", locked := false, leave_request_id := none } 5
      (by unfold add_time_entry
          dsimp only
          rw [normalize_hours_eight]
          rfl)
      rfl (by decide),
   entry_binding_exclusive.2 []
      { id := 3, user_id := 7, type := LeaveType.vacation, date_from := 0,
        date_to := 1, status := LeaveStatus.approved, approver_id := some 1,
        comment := "" } 10
      (by intro f hf; simp [linked_entries] at hf)⟩

/-! ## C10 -/

/-- C10: a `task_id` or `project_id` form string that is empty, non-numeric,
or (case-insensitively) one of the tokens `"0"`, `"none"`, `"null"` parses to
`None` and is silently treated as absent: the call never fails with the
task-missing/task-forbidden errors for such a task id, never fails with the
project-missing/project-forbidden errors for such a project id, a malformed
task id falls through to the project binding, and when both are malformed
(and date and hours are valid) an unbound `work` entry is created. -/
theorem malformed_id_strings_silently_absent :
    (∀ s : List Char,
        (pyStrip s = [] ∨ pyIntOfString (pyStrip s) = none ∨
         pyLower (pyStrip s) = "0".toList ∨ pyLower (pyStrip s) = "none".toList ∨
         pyLower (pyStrip s) = "null".toList) →
        parse_optional_int (some s) = none) ∧
    (∀ user dateRaw hoursRaw task_id project_id notes today allow getTask getProject
        allowedIds newId,
        parse_optional_int (some task_id) = none →
        add_time_entry user dateRaw hoursRaw task_id project_id notes today allow
            getTask getProject allowedIds newId ≠
          Except.error TimesheetError.task_missing ∧
        add_time_entry user dateRaw hoursRaw task_id project_id notes today allow
            getTask getProject allowedIds newId ≠
          Except.error TimesheetError.task_forbidden) ∧
    (∀ user dateRaw hoursRaw task_id project_id notes today allow getTask getProject
        allowedIds newId,
        parse_optional_int (some project_id) = none →
        add_time_entry user dateRaw hoursRaw task_id project_id notes today allow
            getTask getProject allowedIds newId ≠
          Except.error TimesheetError.project_missing ∧
        add_time_entry user dateRaw hoursRaw task_id project_id notes today allow
            getTask getProject allowedIds newId ≠
          Except.error TimesheetError.project_forbidden) ∧
    (∀ user dateRaw hoursRaw task_id project_id notes today allow getTask getProject
        allowedIds newId d hv,
        parse_optional_int (some task_id) = none →
        parse_optional_int (some project_id) = none →
        dateRaw = some d →
        normalize_hours hoursRaw = Except.ok hv →
        add_time_entry user dateRaw hoursRaw task_id project_id notes today allow
            getTask getProject allowedIds newId =
          Except.ok
            { id := newId, user_id := user.id, task_id := none, project_id := none,
              date := d, hours := hv, notes := pyStripString notes,
              approved := backfill_approved d today allow, entry_type := "work",
              locked := false, leave_request_id := none }) := by
  refine ⟨?_, ?_, ?_, ?_⟩
  · intro s h
    unfold parse_optional_int
    dsimp only
    by_cases h1 : (pyStrip s).isEmpty
    · rw [if_pos h1]
    · rw [if_neg h1]
      by_cases h2 : pyLower (pyStrip s) = "0".toList ∨ pyLower (pyStrip s) = "none".toList ∨
          pyLower (pyStrip s) = "null".toList
      · rw [if_pos h2]
      · rw [if_neg h2]
        rcases h with h | h | h | h | h
        · exact absurd (by simp [h, List.isEmpty_eq_true]) h1
        · exact h
        · exact absurd (Or.inl h) h2
        · exact absurd (Or.inr (Or.inl h)) h2
        · exact absurd (Or.inr (Or.inr h)) h2
  · intro user dateRaw hoursRaw task_id project_id notes today allow getTask
      getProject allowedIds newId hpt
    unfold add_time_entry
    cases dateRaw with
    | none => exact ⟨by simp, by simp⟩
    | some d =>
      dsimp only
      cases hn : normalize_hours hoursRaw with
      | error u => exact ⟨by simp, by simp⟩
      | ok hv =>
        rw [hpt]
        constructor <;> · (repeat' split) <;> simp_all [optTruthy]
  · intro user dateRaw hoursRaw task_id project_id notes today allow getTask
      getProject allowedIds newId hpp
    unfold add_time_entry
    cases dateRaw with
    | none => exact ⟨by simp, by simp⟩
    | some d =>
      dsimp only
      cases hn : normalize_hours hoursRaw with
      | error u => exact ⟨by simp, by simp⟩
      | ok hv =>
        rw [hpp]
        constructor <;> · (repeat' split) <;> simp_all [optTruthy]
  · intro user dateRaw hoursRaw task_id project_id notes today allow getTask
      getProject allowedIds newId d hv hpt hpp hd hn
    subst hd
    unfold add_time_entry
    dsimp only
    rw [hn, hpt, hpp]
    simp [optTruthy]

/-- C10 witness: the non-numeric strings `"abc"` and the token `"null"` are
treated as absent bindings and produce an unbound work entry. -/
theorem malformed_id_strings_witness :
    parse_optional_int (some ("abc".toList)) = none ∧
    add_time_entry ⟨1, Role.employee⟩ (some 0) (some 8) ("abc".toList)
        ("null".toList) "" 0 1 (fun _ => none) (fun _ => none) (fun _ => false) 3 =
      Except.ok
        { id := 3, user_id := 1, task_id := none, project_id := none, date := 0,
          hours := 8, notes := pyStripString (""),
          approved := backfill_approved 0 0 1, entry_type := "work",
          locked := false, leave_request_id := none } :=
  ⟨malformed_id_strings_silently_absent.1 ("abc".toList)
      (Or.inr (Or.inl (by decide))),
   malformed_id_strings_silently_absent.2.2.2 ⟨1, Role.employee⟩ (some 0) (some 8)
      ("abc".toList) ("null".toList) "" 0 1 (fun _ => none) (fun _ => none)
      (fun _ => false) 3 0 8 (by decide) (by decide) rfl normalize_hours_eight⟩

end Timeflow

namespace Timeflow

/-- Projecting the second components of `enumFrom` returns the original list. -/
theorem enumFrom_map_snd {α : Type} (l : List α) : ∀ n, (l.enumFrom n).map Prod.snd = l := by
  induction l with
  | nil => intro n; rfl
  | cons a t ih => intro n; simp only [List.enumFrom, List.map_cons]; rw [ih]

/-- `_daterange` never yields a date twice. -/
theorem daterange_nodup (a b : Int) : (daterange a b).Nodup := by
  unfold daterange
  refine List.Nodup.map ?_ (List.nodup_range _)
  intro i j h
  simp only at h
  omega

/-- Building a date-keyed dict from rows with pairwise-distinct dates never
overwrites: the fold appends one binding per row. -/
theorem foldl_dictInsert_eq (rows : List TimeEntry) :
    ∀ acc : List (Int × TimeEntry),
      (∀ e ∈ rows, ¬ e.date ∈ acc.map Prod.fst) →
      (rows.map TimeEntry.date).Nodup →
      rows.foldl (fun m e => dictInsert m e.date e) acc =
        acc ++ rows.map (fun e => (e.date, e)) := by
  induction rows with
  | nil => intro acc _ _; simp
  | cons e rest ih =>
    intro acc hdisj hnodup
    rw [List.map_cons, List.nodup_cons] at hnodup
    obtain ⟨hd1, hd2⟩ := hnodup
    have hnotin : ¬ e.date ∈ acc.map Prod.fst := hdisj e (List.mem_cons_self e rest)
    have hins : dictInsert acc e.date e = acc ++ [(e.date, e)] := by
      unfold dictInsert
      rw [if_neg hnotin]
    have hdisj2 : ∀ f ∈ rest, ¬ f.date ∈ (acc ++ [(e.date, e)]).map Prod.fst := by
      intro f hf
      rw [List.map_append, List.mem_append]
      rintro (hfa | hfe)
      · exact hdisj f (List.mem_cons_of_mem e hf) hfa
      · simp only [List.map_cons, List.map_nil, List.mem_singleton] at hfe
        exact hd1 (hfe ▸ List.mem_map_of_mem TimeEntry.date hf)
    rw [List.foldl_cons, hins, ih (acc ++ [(e.date, e)]) hdisj2 hd2]
    simp

/-- On rows with pairwise-distinct dates the Python dict comprehension keyed
by date is just the list of (date, row) bindings. -/
theorem buildByDate_eq_of_nodup (rows : List TimeEntry)
    (h : (rows.map TimeEntry.date).Nodup) :
    buildByDate rows = rows.map (fun e => (e.date, e)) := by
  have hf := foldl_dictInsert_eq rows [] (by simp) h
  simpa [buildByDate] using hf

/-- C2: for every leave request with range `[a, b]` and every prior database
state whose rows have distinct primary keys and whose entries linked to the
request have pairwise-distinct dates (as every state produced by the
synchronizer itself and by rejection does), running the synchronizer leaves
the set of linked time-entry dates equal to exactly `{a, a+1, …, b}` (empty
when `a > b`), with no duplicate dates, and every linked entry has
`entry_type = "leave"`, `approved = true`, `locked = true`, and
`hours = SHIFT_HOURS`. Since the prior linked set is arbitrary, re-approving
after the range was edited converges the linked set to the current range:
synchronization is idempotent. -/
theorem sync_linked_entries_exact (db : List TimeEntry) (leave : LeaveRequest)
    (nextId : Int)
    (hids : (db.map TimeEntry.id).Nodup)
    (hdates : ((linked_entries db leave.id).map TimeEntry.date).Nodup) :
    ((linked_entries (sync_leave_time_entries db leave nextId) leave.id).map
        TimeEntry.date).Nodup ∧
    ((linked_entries (sync_leave_time_entries db leave nextId) leave.id).map
        TimeEntry.date).toFinset = Finset.Icc leave.date_from leave.date_to ∧
    ∀ e ∈ linked_entries (sync_leave_time_entries db leave nextId) leave.id,
      e.entry_type = "leave" ∧ e.approved = true ∧ e.locked = true ∧
      e.hours = SHIFT_HOURS := by
  have hinj : ∀ x ∈ db, ∀ y ∈ db, TimeEntry.id x = TimeEntry.id y → x = y :=
    List.inj_on_of_nodup_map hids
  have hpair : buildByDate (linked_entries db leave.id) =
      (linked_entries db leave.id).map (fun e => (e.date, e)) :=
    buildByDate_eq_of_nodup _ hdates
  have hsplit : linked_entries (sync_leave_time_entries db leave nextId) leave.id =
      ((db.filter (fun e => decide (¬ (e.leave_request_id = some leave.id ∧
            ¬ e.date ∈ daterange leave.date_from leave.date_to)))).filter
          (fun e => decide (e.leave_request_id = some leave.id))).map
        (canonical_leave_entry_update (leave_note leave)) ++
      (((daterange leave.date_from leave.date_to).filter
          (fun day => !(db.filter
              (fun e => decide (e.leave_request_id = some leave.id))).any
            (fun g => decide (g.date = day)))).enum.map
        (fun p =>
          ({ id := nextId + (p.1 : Int), user_id := leave.user_id,
             task_id := none, project_id := none, date := p.2,
             hours := SHIFT_HOURS, notes := leave_note leave, approved := true,
             entry_type := "leave", locked := true,
             leave_request_id := some leave.id } : TimeEntry))) := by
    unfold sync_leave_time_entries
    dsimp only
    rw [hpair]
    unfold linked_entries
    rw [List.filter_append]
    set desired := daterange leave.date_from leave.date_to with hdes
    set note := leave_note leave with hnote
    set linkedDb := List.filter (fun e => decide (e.leave_request_id = some leave.id)) db
      with hldb
    set pairs := List.map (fun e => (e.date, e)) linkedDb with hprs
    set kept := List.filter (fun p => decide (p.1 ∈ desired)) pairs with hkpt
    set staleIds := List.map (fun p => p.2.id)
      (List.filter (fun p => decide (p.1 ∉ desired)) pairs) with hsid
    congr 1
    · rw [List.filter_map]
      have hfc : ∀ e ∈ List.filter (fun e => decide (e.id ∉ staleIds)) db,
          ((fun e => decide (e.leave_request_id = some leave.id)) ∘
            (fun e => if (kept.any fun p => decide (p.2.id = e.id)) = true then
                canonical_leave_entry_update note e else e)) e =
          (fun e => decide (e.leave_request_id = some leave.id)) e := by
        intro e _
        simp only [Function.comp_apply]
        split <;> rfl
      rw [List.filter_congr hfc]
      have hstaleiff : ∀ e ∈ db, e.id ∈ staleIds ↔
          (e.leave_request_id = some leave.id ∧ e.date ∉ desired) := by
        intro e he
        rw [hsid, hprs, hldb]
        constructor
        · intro hmem
          simp only [List.mem_map, List.mem_filter, decide_eq_true_eq] at hmem
          obtain ⟨p, ⟨⟨g, ⟨hgdb, hglink⟩, rfl⟩, hpd⟩, hpid⟩ := hmem
          have hge : g = e := hinj g hgdb e he hpid
          subst hge
          exact ⟨hglink, hpd⟩
        · rintro ⟨h1, h2⟩
          simp only [List.mem_map, List.mem_filter, decide_eq_true_eq]
          exact ⟨(e.date, e), ⟨⟨e, ⟨he, h1⟩, rfl⟩, h2⟩, rfl⟩
      have hdel : List.filter (fun e => decide (e.id ∉ staleIds)) db =
          List.filter (fun e => decide (¬ (e.leave_request_id = some leave.id ∧
            e.date ∉ desired))) db :=
        List.filter_congr (fun e he => by
          rw [decide_eq_decide]
          exact not_congr (hstaleiff e he))
      rw [hdel]
      refine List.map_congr_left ?_
      intro g hg
      rw [List.mem_filter] at hg
      obtain ⟨hg1, hg2⟩ := hg
      rw [List.mem_filter] at hg1
      obtain ⟨hgdb, hga⟩ := hg1
      rw [decide_eq_true_eq] at hga hg2
      have hdd : g.date ∈ desired := by
        by_contra hc
        exact hga ⟨hg2, hc⟩
      have hcond : (kept.any fun p => decide (p.2.id = g.id)) = true := by
        rw [hkpt, hprs, hldb, List.any_eq_true]
        refine ⟨(g.date, g), ?_, decide_eq_true rfl⟩
        rw [List.mem_filter]
        constructor
        · rw [List.mem_map]
          exact ⟨g, by rw [List.mem_filter]
                       exact ⟨hgdb, decide_eq_true hg2⟩, rfl⟩
        · exact decide_eq_true hdd
      rw [if_pos hcond]
    · have hfilterall : ∀ l : List (Nat × Int),
          List.filter (fun e => decide (e.leave_request_id = some leave.id))
            (List.map (fun p =>
              ({ id := nextId + (p.1 : Int), user_id := leave.user_id,
                 task_id := none, project_id := none, date := p.2,
                 hours := SHIFT_HOURS, notes := note, approved := true,
                 entry_type := "leave", locked := true,
                 leave_request_id := some leave.id } : TimeEntry)) l) =
          List.map (fun p =>
              ({ id := nextId + (p.1 : Int), user_id := leave.user_id,
                 task_id := none, project_id := none, date := p.2,
                 hours := SHIFT_HOURS, notes := note, approved := true,
                 entry_type := "leave", locked := true,
                 leave_request_id := some leave.id } : TimeEntry)) l := by
        intro l
        rw [List.filter_eq_self]
        intro a ha
        rw [List.mem_map] at ha
        obtain ⟨p, _, rfl⟩ := ha
        exact decide_eq_true rfl
      rw [hfilterall]
      have hmiss : List.filter (fun day => !(kept.any fun p => decide (p.1 = day)))
            desired =
          List.filter (fun day => !(linkedDb.any fun g => decide (g.date = day)))
            desired := by
        refine List.filter_congr ?_
        intro day hday
        have hany : (kept.any fun p => decide (p.1 = day)) =
            (linkedDb.any fun g => decide (g.date = day)) := by
          rw [Bool.eq_iff_iff, hkpt, hprs]
          simp only [List.any_eq_true, List.mem_filter, List.mem_map,
            decide_eq_true_eq]
          constructor
          · rintro ⟨p, ⟨⟨g, hg, rfl⟩, hpd⟩, hpeq⟩
            exact ⟨g, hg, hpeq⟩
          · rintro ⟨g, hg, hgd⟩
            exact ⟨(g.date, g), ⟨⟨g, hg, rfl⟩, hgd ▸ hday⟩, hgd⟩
        rw [hany]
      rw [hmiss]
  rw [hsplit]
  set desired := daterange leave.date_from leave.date_to with hdes
  set note := leave_note leave with hnote
  set base := (db.filter (fun e => decide (¬ (e.leave_request_id = some leave.id ∧
      ¬ e.date ∈ desired)))).filter (fun e => decide (e.leave_request_id = some leave.id))
    with hbase
  set missing := desired.filter (fun day => !(db.filter
      (fun e => decide (e.leave_request_id = some leave.id))).any
      (fun g => decide (g.date = day))) with hmissd
  have hbasemem : ∀ e, e ∈ base ↔
      (e ∈ db ∧ e.leave_request_id = some leave.id ∧ e.date ∈ desired) := by
    intro e
    rw [hbase]
    simp only [List.mem_filter, decide_eq_true_eq]
    constructor
    · rintro ⟨⟨hdb, hnot⟩, hP⟩
      refine ⟨hdb, hP, ?_⟩
      by_contra hc
      exact hnot ⟨hP, hc⟩
    · rintro ⟨hdb, hP, hdd⟩
      exact ⟨⟨hdb, fun h => h.2 hdd⟩, hP⟩
  have hmissmem : ∀ d, d ∈ missing ↔
      (d ∈ desired ∧ ∀ g, g ∈ db → g.leave_request_id = some leave.id →
        g.date ≠ d) := by
    intro d
    rw [hmissd, List.mem_filter]
    constructor
    · rintro ⟨h1, h2⟩
      rw [Bool.not_eq_true', List.any_eq_false] at h2
      refine ⟨h1, fun g hgdb hglink hgd => ?_⟩
      have hgmem : g ∈ List.filter
          (fun e => decide (e.leave_request_id = some leave.id)) db := by
        rw [List.mem_filter]
        exact ⟨hgdb, decide_eq_true hglink⟩
      have hcontra := h2 g hgmem
      simp only [decide_eq_true_eq] at hcontra
      exact hcontra hgd
    · rintro ⟨h1, h2⟩
      refine ⟨h1, ?_⟩
      rw [Bool.not_eq_true', List.any_eq_false]
      intro g hgmem
      simp only [List.mem_filter, decide_eq_true_eq] at hgmem
      simp only [decide_eq_true_eq]
      exact h2 g hgmem.1 hgmem.2
  have hA : (base.map (canonical_leave_entry_update note)).map TimeEntry.date =
      base.map TimeEntry.date := by
    rw [List.map_map]
    exact List.map_congr_left (fun e _ => rfl)
  have hB : ((missing.enum.map (fun p =>
      ({ id := nextId + (p.1 : Int), user_id := leave.user_id,
         task_id := none, project_id := none, date := p.2,
         hours := SHIFT_HOURS, notes := note, approved := true,
         entry_type := "leave", locked := true,
         leave_request_id := some leave.id } : TimeEntry))).map TimeEntry.date) =
      missing := by
    rw [List.map_map]
    have h1 : ∀ p ∈ missing.enum, (TimeEntry.date ∘ (fun p =>
        ({ id := nextId + (p.1 : Int), user_id := leave.user_id,
           task_id := none, project_id := none, date := p.2,
           hours := SHIFT_HOURS, notes := note, approved := true,
           entry_type := "leave", locked := true,
           leave_request_id := some leave.id } : TimeEntry))) p = Prod.snd p :=
      fun p _ => rfl
    rw [List.map_congr_left h1]
    have h2 : missing.enum = missing.enumFrom 0 := rfl
    rw [h2]
    exact enumFrom_map_snd missing 0
  refine ⟨?_, ?_, ?_⟩
  · rw [List.map_append, hA, hB]
    refine List.Nodup.append ?_ ?_ ?_
    · have h1 : List.Sublist base (List.filter
          (fun e => decide (e.leave_request_id = some leave.id)) db) := by
        rw [hbase]
        exact List.Sublist.filter _ (List.filter_sublist db)
      exact List.Nodup.sublist (h1.map TimeEntry.date) hdates
    · rw [hmissd]
      exact List.Nodup.filter _ (daterange_nodup _ _)
    · intro x hx1 hx2
      rw [List.mem_map] at hx1
      obtain ⟨e, he, rfl⟩ := hx1
      obtain ⟨hedb, helink, hedd⟩ := (hbasemem e).mp he
      obtain ⟨_, hall⟩ := (hmissmem _).mp hx2
      exact hall e hedb helink rfl
  · refine Finset.ext ?_
    intro x
    rw [List.mem_toFinset, Finset.mem_Icc, ← mem_daterange, List.map_append,
      List.mem_append, hA, hB]
    constructor
    · rintro (hx | hx)
      · rw [List.mem_map] at hx
        obtain ⟨e, he, rfl⟩ := hx
        exact ((hbasemem e).mp he).2.2
      · exact ((hmissmem x).mp hx).1
    · intro hx
      by_cases hex : ∃ g, g ∈ db ∧ g.leave_request_id = some leave.id ∧ g.date = x
      · left
        obtain ⟨g, hgdb, hglink, hgd⟩ := hex
        rw [List.mem_map]
        exact ⟨g, (hbasemem g).mpr ⟨hgdb, hglink, hgd ▸ hx⟩, hgd⟩
      · right
        rw [hmissmem]
        exact ⟨hx, fun g hgdb hglink hgd => hex ⟨g, hgdb, hglink, hgd⟩⟩
  · intro e he
    rw [List.mem_append] at he
    rcases he with he | he
    · rw [List.mem_map] at he
      obtain ⟨g, _, rfl⟩ := he
      exact ⟨rfl, rfl, rfl, rfl⟩
    · rw [List.mem_map] at he
      obtain ⟨p, _, rfl⟩ := he
      exact ⟨rfl, rfl, rfl, rfl⟩

/-- C2 witness: a database holding a stale two-entry materialization (dates
0 and 4) of leave request 3 plus an unrelated work entry, re-synchronized for
the edited range `[0, 2]`, ends with linked dates exactly `{0, 1, 2}` and
canonical field values. -/
theorem sync_linked_entries_exact_witness :
    ((linked_entries (sync_leave_time_entries
        [⟨1, 7, none, none, 0, 8, "a", true, "leave", true, some 3⟩,
         ⟨2, 7, none, none, 4, 8, "b", true, "leave", true, some 3⟩,
         ⟨5, 9, some 4, none, 1, 2, "w", true, "work", false, none⟩]
        ⟨3, 7, LeaveType.vacation, 0, 2, LeaveStatus.approved, some 1, ""⟩
        10) 3).map TimeEntry.date).Nodup ∧
    ((linked_entries (sync_leave_time_entries
        [⟨1, 7, none, none, 0, 8, "a", true, "leave", true, some 3⟩,
         ⟨2, 7, none, none, 4, 8, "b", true, "leave", true, some 3⟩,
         ⟨5, 9, some 4, none, 1, 2, "w", true, "work", false, none⟩]
        ⟨3, 7, LeaveType.vacation, 0, 2, LeaveStatus.approved, some 1, ""⟩
        10) 3).map TimeEntry.date).toFinset = Finset.Icc (0 : Int) 2 ∧
    ∀ e ∈ linked_entries (sync_leave_time_entries
        [⟨1, 7, none, none, 0, 8, "a", true, "leave", true, some 3⟩,
         ⟨2, 7, none, none, 4, 8, "b", true, "leave", true, some 3⟩,
         ⟨5, 9, some 4, none, 1, 2, "w", true, "work", false, none⟩]
        ⟨3, 7, LeaveType.vacation, 0, 2, LeaveStatus.approved, some 1, ""⟩
        10) 3,
      e.entry_type = "leave" ∧ e.approved = true ∧ e.locked = true ∧
      e.hours = SHIFT_HOURS :=
  sync_linked_entries_exact
    [⟨1, 7, none, none, 0, 8, "a", true, "leave", true, some 3⟩,
     ⟨2, 7, none, none, 4, 8, "b", true, "leave", true, some 3⟩,
     ⟨5, 9, some 4, none, 1, 2, "w", true, "work", false, none⟩]
    ⟨3, 7, LeaveType.vacation, 0, 2, LeaveStatus.approved, some 1, ""⟩
    10 (by decide) (by decide)

end Timeflow
